import Mathlib

/-!
Verification of `backend/app/tools.py`: the tool registry, the retrieval-tool
factory, the CSV/file utilities, the two object-storage upload backends, and
the module-level startup validation loop.

The Python module is embedded shallowly.  Side effects (environment variables,
the local filesystem, the object-storage network) are modelled by an explicit
`World` record threaded through the functions; a Python exception escaping a
function is an `Except` error value.
-/

namespace ToolsPy

/-- Python exceptions that the module can raise or catch. -/
inductive PyErr where
  /-- The `KeyError` exception, raised by `os.environ[k]` when `k` is absent. -/
  | keyError (k : String)
  /-- The `FileNotFoundError` exception, raised by `boto3 upload_file` on a missing local file
      and by `os.listdir` on a missing directory. -/
  | fileNotFound (p : String)
  /-- The `botocore.exceptions.NoCredentialsError` exception. -/
  | noCredentials
  /-- The `ValueError` exception (raised by the Connery service constructor on missing config). -/
  | valueError (msg : String)
  /-- any other exception raised during an upload attempt. -/
  | uploadError (msg : String)
deriving DecidableEq, Repr

/-- Outcome of an attempted object-storage transfer once the local file has
    been opened: the service accepts it, rejects the credentials
    (`NoCredentialsError`), or fails some other way. -/
inductive NetOutcome where
  | success
  | credsRejected
  | failure (msg : String)
deriving DecidableEq, Repr

/-- The external state the module reads: environment variables, which local
    files exist, what `os.listdir` returns per directory, and the behaviour of
    the two object-storage services. -/
structure World where
  env : List (String × String)
  files : List String
  listdir : String → Except PyErr (List String)
  wasabiNet : NetOutcome
  awsNet : NetOutcome
  /-- whether the remote Connery runner accepts the configured URL/key pair. -/
  conneryAccepts : Bool

/-- Python `os.environ.get k`: `none` when the variable is absent. -/
def envGet (w : World) (k : String) : Option String :=
  (w.env.find? (fun p => p.1 = k)).map (fun p => p.2)

/-- Python `os.environ[k]`: raises `KeyError` when the variable is absent. -/
def envItem (w : World) (k : String) : Except PyErr String :=
  match envGet w k with
  | none => .error (.keyError k)
  | some v => .ok v

/-- POSIX `os.path.join a b`: a component that is an absolute path discards
    everything before it; otherwise the parts are joined with `/` (no extra
    separator after a trailing one). -/
def posixJoin (a b : String) : String :=
  if b.data.head? = some '/' then b
  else if a.data.getLast? = some '/' then a ++ b
  else a ++ "/" ++ b

/-- Python `s.split('/')[-1]` — also the value of POSIX `os.path.basename s`
    (everything after the final slash).  Python's `str.split` always returns a
    nonempty list, so the last element exists. -/
def lastSlashComponent (s : String) : String :=
  (s.splitOn "/").getLastD ""

/-! ### The CSV dialect of Python's `csv` module (default dialect)

`create_csv` serialises rows with `csv.writer` and the spec's round-trip
property re-reads the file with `csv.reader`.  Both are modelled here on
fields given as `List Char`, following the default dialect: delimiter `,`,
quote char `"`, `QUOTE_MINIMAL`, line terminator `"\r\n"`, quotes escaped by
doubling.  -/

/-- Under `QUOTE_MINIMAL`, a field is quoted exactly when it contains the delimiter,
    the quote character, or a line-terminator character. -/
def needsQuote (f : List Char) : Bool :=
  f.any (fun c => c = ',' || c = '\"' || c = '\r' || c = '\n')

/-- Escape a field body for quoting: each quote character is doubled. -/
def escapeQuotes (f : List Char) : List Char :=
  f.flatMap (fun c => if c = '\"' then ['\"', '\"'] else [c])

/-- Serialise one field under `QUOTE_MINIMAL`. -/
def encodeField (f : List Char) : List Char :=
  if needsQuote f then '\"' :: (escapeQuotes f ++ ['\"']) else f

/-- Fields of a row joined by the delimiter. -/
def encodeRowPlain : List (List Char) → List Char
  | [] => []
  | [f] => encodeField f
  | f :: fs => encodeField f ++ ',' :: encodeRowPlain fs

/-- Serialise one row (without the line terminator).  The writer quotes a
    lone empty field so that the row is not mistaken for a blank line. -/
def encodeRow (r : List (List Char)) : List Char :=
  match r with
  | [f] => if f = [] then ['\"', '\"'] else encodeField f
  | _ => encodeRowPlain r

/-- Python `csv.writer.writerow` applied to each row in order: every row is followed
    by the `"\r\n"` line terminator. -/
def encodeRows (rows : List (List (List Char))) : List Char :=
  rows.flatMap (fun r => encodeRow r ++ ['\r', '\n'])

/-- Read the body of a quoted field (the opening quote already consumed):
    a doubled quote contributes one quote character, a lone quote closes the
    field.  Returns the field and the unconsumed rest. -/
def parseQuoted : List Char → List Char × List Char
  | [] => ([], [])
  | c :: rest =>
    if c = '\"' then
      match rest with
      | [] => ([], [])
      | c2 :: rest2 =>
        if c2 = '\"' then
          let p := parseQuoted rest2
          ('\"' :: p.1, p.2)
        else ([], rest)
    else
      let p := parseQuoted rest
      (c :: p.1, p.2)

/-- Read an unquoted field: everything up to the delimiter or a
    line-terminator character. -/
def parseUnquoted : List Char → List Char × List Char
  | [] => ([], [])
  | c :: rest =>
    if c = ',' ∨ c = '\r' ∨ c = '\n' then ([], c :: rest)
    else
      let p := parseUnquoted rest
      (c :: p.1, p.2)

/-- Read one field: quoted when it starts with the quote character. -/
def parseField (cs : List Char) : List Char × List Char :=
  if cs.head? = some '\"' then parseQuoted cs.tail else parseUnquoted cs

/-- Drop one line terminator (`"\r\n"`, or a stray `'\r'`/`'\n'`). -/
def dropEol (cs : List Char) : List Char :=
  if cs.take 2 = ['\r', '\n'] then cs.drop 2
  else if cs.head? = some '\r' ∨ cs.head? = some '\n' then cs.tail
  else cs

/-- Read the fields of one line (fuel bounds the number of fields). -/
def parseRowFuel : Nat → List Char → List (List Char) × List Char
  | 0, cs => ([], cs)
  | Nat.succ fuel, cs =>
    let p := parseField cs
    if p.2.head? = some ',' then
      let q := parseRowFuel fuel p.2.tail
      (p.1 :: q.1, q.2)
    else if p.2.take 2 = ['\r', '\n'] then ([p.1], p.2.drop 2)
    else ([p.1], dropEol p.2)

/-- Read all lines; a blank line is the empty row, as with `csv.reader`
    (fuel bounds the number of rows). -/
def parseRowsFuel : Nat → List Char → List (List (List Char))
  | 0, _ => []
  | Nat.succ fuel, cs =>
    if cs = [] then []
    else if cs.take 2 = ['\r', '\n'] then [] :: parseRowsFuel fuel (cs.drop 2)
    else
      let p := parseRowFuel (cs.length + 1) cs
      p.1 :: parseRowsFuel fuel p.2

/-- Parse a whole CSV document (`csv.reader` on the file's contents). -/
def csvParse (cs : List Char) : List (List (List Char)) :=
  parseRowsFuel (cs.length + 1) cs

/-- The function `create_csv(header, data, file_name)`: joins the fixed folder `"data"`
    with the file name, ensures the folder exists, writes the header row and
    then each data row with `csv.writer`, and returns the path it opened.
    The result is that path together with the bytes written to it (the two
    `TODEL` lines binding `csv_output` are dead code). -/
def create_csv (header : List (List Char)) (data : List (List (List Char)))
    (file_name : String) : String × List Char :=
  let folder_path := "data"
  let csv_file := posixJoin folder_path file_name
  (csv_file, encodeRows (header :: data))

/-! ### Object-storage uploads -/

/-- The arguments of an `s3_client.upload_file` call: which endpoint the
    client was built for, the local path, bucket, object key and ACL. -/
structure UploadRequest where
  endpointHost : String
  filePath : String
  bucket : String
  objectName : String
  acl : String
deriving DecidableEq, Repr

/-- The `boto3` call `upload_file`: raises `FileNotFoundError` when the local file
    does not exist, otherwise succeeds or raises according to the service's
    response. -/
def s3UploadFile (net : NetOutcome) (files : List String) (req : UploadRequest) :
    Except PyErr Unit :=
  if req.filePath ∈ files then
    match net with
    | .success => .ok ()
    | .credsRejected => .error .noCredentials
    | .failure m => .error (.uploadError m)
  else .error (.fileNotFound req.filePath)

/-- The function `upload_file_to_wasabi(file_name)`.  Reads `WASABI_ACCESS_KEY` and
    `WASABI_SECRET_KEY` with `os.environ[...]` (outside any `try`), resolves
    the file against `data/`, and attempts the upload with ACL
    `public-read`; only `NoCredentialsError` is caught (printing a diagnostic
    and returning `None`).  Result: the returned value (or escaping
    exception) and the upload calls that were issued. -/
def upload_file_to_wasabi (w : World) (file_name : String) :
    Except PyErr (Option String) × List UploadRequest :=
  let wasabi_region := "ap-southeast-1"
  let bucket_name := "tesa-medication-schedules"
  let object_name := lastSlashComponent file_name
  match envItem w "WASABI_ACCESS_KEY" with
  | .error e => (.error e, [])
  | .ok _ =>
    match envItem w "WASABI_SECRET_KEY" with
    | .error e => (.error e, [])
    | .ok _ =>
      let file_path := posixJoin "data" file_name
      let req : UploadRequest :=
        ⟨"s3." ++ wasabi_region ++ ".wasabisys.com", file_path, bucket_name,
          object_name, "public-read"⟩
      match s3UploadFile w.wasabiNet w.files req with
      | .ok _ =>
        (.ok (some ("https://" ++ bucket_name ++ ".s3." ++ wasabi_region ++
          ".wasabisys.com/" ++ object_name)), [req])
      | .error .noCredentials => (.ok none, [req])
      | .error e => (.error e, [req])

/-- The function `upload_file_to_s3(file_name)`.  Reads `AWS_ACCESS_KEY_ID` and
    `AWS_SECRET_ACCESS_KEY` with `os.environ[...]` (outside any `try`),
    resolves the file against `data/`, and attempts the upload with ACL
    `public-read`; `except Exception` catches every failure of the upload
    call (printing a diagnostic and returning `None`). -/
def upload_file_to_s3 (w : World) (file_name : String) :
    Except PyErr (Option String) × List UploadRequest :=
  let s3_region := "ap-southeast-1"
  let bucket_name := "tesa-medication-schedules"
  let object_name := lastSlashComponent file_name
  match envItem w "AWS_ACCESS_KEY_ID" with
  | .error e => (.error e, [])
  | .ok _ =>
    match envItem w "AWS_SECRET_ACCESS_KEY" with
    | .error e => (.error e, [])
    | .ok _ =>
      let file_path := posixJoin "data" file_name
      let req : UploadRequest :=
        ⟨"s3." ++ s3_region ++ ".amazonaws.com", file_path, bucket_name,
          object_name, "public-read"⟩
      match s3UploadFile w.awsNet w.files req with
      | .ok _ =>
        (.ok (some ("https://" ++ bucket_name ++ ".s3." ++ s3_region ++
          ".amazonaws.com/" ++ object_name)), [req])
      | .error _ => (.ok none, [req])

/-- The function `get_all_files_in_data_folder(folder_path="data")`: `os.listdir` on the
    given folder. -/
def get_all_files_in_data_folder (w : World) (folder_path : String := "data") :
    Except PyErr (List String) :=
  w.listdir folder_path

/-! ### The retrieval tool factory and its `lru_cache`

`get_retrieval_tool` is decorated with `functools.lru_cache(maxsize=5)`.  The
cache is modelled as explicit state: an association list in
most-recently-used-first order plus a counter supplying the identity of each
freshly constructed tool object (two distinct constructions are distinct
Python objects). -/

/-- The retriever returned by `vstore.as_retriever(...)`: its search filter
    restricts results to documents whose `namespace` tag equals the assistant
    identifier. -/
structure Retriever where
  namespaceFilter : String
deriving DecidableEq, Repr

/-- The function `get_retriever(assistant_id)`. -/
def get_retriever (assistant_id : String) : Retriever :=
  ⟨assistant_id⟩

/-- The tool object built by `create_retriever_tool`; `instanceId` stands for
    Python object identity. -/
structure RetrievalTool where
  retriever : Retriever
  name : String
  description : String
  instanceId : Nat
deriving DecidableEq, Repr

/-- The langchain helper `create_retriever_tool(retriever, name, description)`: wraps
    the retriever in a fresh tool object. -/
def create_retriever_tool (r : Retriever) (nm desc : String) (fresh : Nat) :
    RetrievalTool :=
  ⟨r, nm, desc, fresh⟩

/-- State of the `lru_cache(maxsize=5)` on `get_retrieval_tool`: entries in
    most-recently-used-first order, and the next fresh object identity. -/
structure LruCache where
  entries : List ((String × String) × RetrievalTool)
  nextId : Nat
deriving Repr

/-- The cached tool for a key, if present. -/
def LruCache.lookup (c : LruCache) (key : String × String) : Option RetrievalTool :=
  (c.entries.find? (fun p => decide (p.1 = key))).map (fun p => p.2)

/-- The cache's structural invariant: at most five entries, and every cached
    tool is the one `create_retriever_tool (get_retriever aid) "Retriever" desc`
    builds for its own key `(aid, desc)`. -/
def LruCache.wf (c : LruCache) : Bool :=
  decide (c.entries.length ≤ 5) &&
    c.entries.all (fun p =>
      decide (p.2.retriever.namespaceFilter = p.1.1) &&
      decide (p.2.name = "Retriever") &&
      decide (p.2.description = p.1.2))

/-- The function `get_retrieval_tool(assistant_id, description)` under
    `lru_cache(maxsize=5)`: a hit returns the cached object and marks it most
    recently used; a miss constructs a fresh tool over
    `get_retriever(assistant_id)`, caches it, and evicts the least recently
    used entry when the cache would exceed five entries. -/
def get_retrieval_tool (assistant_id description : String) (c : LruCache) :
    RetrievalTool × LruCache :=
  let key := (assistant_id, description)
  match c.entries.find? (fun p => decide (p.1 = key)) with
  | some p => (p.2, ⟨p :: c.entries.filter (fun q => !(decide (q.1 = key))), c.nextId⟩)
  | none =>
    let t := create_retriever_tool (get_retriever assistant_id) "Retriever"
      description c.nextId
    (t, ⟨((key, t) :: c.entries).take 5, c.nextId + 1⟩)

/-! ### The agent-facing tool classes

Each `BaseTool` subclass has a blocking `_run` and a non-blocking `_arun`
entry point; both bodies are translated separately from the source.  The
class attributes that the claims mention are reproduced as constants. -/

/-- The method `CreateCSV._run`. -/
def CreateCSV_run (header : List (List Char)) (data : List (List (List Char)))
    (file_name : String) : String × List Char :=
  create_csv header data file_name

/-- The method `CreateCSV._arun`. -/
def CreateCSV_arun (header : List (List Char)) (data : List (List (List Char)))
    (file_name : String) : String × List Char :=
  create_csv header data file_name

/-- The class attribute `UploadCSV.description`. -/
def UploadCSV_description : String :=
  "Upload a CSV file to Wasabi Hot Cloud Storage."

/-- The method `UploadCSV._run`. -/
def UploadCSV_run (w : World) (file_name : String) :
    Except PyErr (Option String) × List UploadRequest :=
  upload_file_to_s3 w file_name

/-- The method `UploadCSV._arun`. -/
def UploadCSV_arun (w : World) (file_name : String) :
    Except PyErr (Option String) × List UploadRequest :=
  upload_file_to_s3 w file_name

/-- The method `GetFilesInDataFolder._run`: calls
    `get_all_files_in_data_folder(folder_path="data")`, with the caller's
    `folder_path` unused. -/
def GetFilesInDataFolder_run (w : World) (folder_path : String) :
    Except PyErr (List String) :=
  get_all_files_in_data_folder w "data"

/-- The method `GetFilesInDataFolder._arun`: same body as `_run`. -/
def GetFilesInDataFolder_arun (w : World) (folder_path : String) :
    Except PyErr (List String) :=
  get_all_files_in_data_folder w "data"

/-! ### The registry and the startup validation loop -/

/-- The uncommented members of the `AvailableTools` enumeration. -/
inductive AvailableTools where
  | CONNERY
  | RETRIEVAL
  | CREATE_CSV
  | UPLOAD_CSV
  | GET_ALL_FILES
deriving DecidableEq, Repr

/-- The string value of each enumeration member. -/
def AvailableTools.value : AvailableTools → String
  | .CONNERY => "\"AI Action Runner\" by Connery"
  | .RETRIEVAL => "Retrieval"
  | .CREATE_CSV => "Create CSV"
  | .UPLOAD_CSV => "Upload CSV"
  | .GET_ALL_FILES => "Get all files in data folder"

/-- The factory `_get_connery_actions`: builds a `ConneryService` from
    `CONNERY_RUNNER_URL` and `CONNERY_RUNNER_API_KEY` (read with
    `os.environ.get`) and asks the toolkit for its tools.  Modelled from the
    spec for the langchain part outside this repository: "Construction of the
    action-runner entry requires two environment-sourced values (a service URL
    and an API key); if either is absent or the remote service rejects them,
    construction fails and that failure propagates to the caller." -/
def connery_factory (w : World) : Except PyErr Unit :=
  match envGet w "CONNERY_RUNNER_URL", envGet w "CONNERY_RUNNER_API_KEY" with
  | none, _ => .error (.valueError "CONNERY_RUNNER_URL environment variable must be set")
  | _, none => .error (.valueError "CONNERY_RUNNER_API_KEY environment variable must be set")
  | some _, some _ =>
    if w.conneryAccepts then .ok ()
    else .error (.valueError "Connery runner rejected the configured credentials")

/-- Calling the `CreateCSV` class: instantiates the tool; reads no
    configuration and touches no external state. -/
def createCSV_factory (w : World) : Except PyErr Unit :=
  .ok ()

/-- Calling the `UploadCSV` class: instantiates the tool; reads no
    configuration and touches no external state. -/
def uploadCSV_factory (w : World) : Except PyErr Unit :=
  .ok ()

/-- Calling `get_all_files_in_data_folder` with no argument: lists the
    default `"data"` folder (raising if it does not exist). -/
def get_all_files_factory (w : World) : Except PyErr Unit :=
  (get_all_files_in_data_folder w).map (fun _ => ())

/-- The `TOOLS` registry: the uncommented entries, in source order, each
    mapped to the effect of calling its registered value with no arguments.
    `RETRIEVAL` has no entry. -/
def TOOLS : List (AvailableTools × (World → Except PyErr Unit)) :=
  [(.CONNERY, connery_factory),
   (.CREATE_CSV, createCSV_factory),
   (.UPLOAD_CSV, uploadCSV_factory),
   (.GET_ALL_FILES, get_all_files_factory)]

/-- How many entries the registry holds for a key. -/
def countKey (k : AvailableTools) : Nat :=
  (TOOLS.filter (fun p => decide (p.1 = k))).length

/-- All enumeration members, in declaration order. -/
def allAvailableTools : List AvailableTools :=
  [.CONNERY, .RETRIEVAL, .CREATE_CSV, .UPLOAD_CSV, .GET_ALL_FILES]

/-- Python `TOOL_OPTIONS = {e.value: e.value for e in AvailableTools}`. -/
def TOOL_OPTIONS : List (String × String) :=
  allAvailableTools.map (fun e => (e.value, e.value))

/-- Registry lookup by a tool's string identifier: a pure search of the
    association list, invoking nothing. -/
def lookupTool (s : String) : Option (World → Except PyErr Unit) :=
  (TOOLS.find? (fun p => decide (p.1.value = s))).map (fun p => p.2)

/-- The module-level loop `for k, v in TOOLS.items(): if k !=
    AvailableTools.CONNERY: v()`, over an arbitrary registry: returns the
    keys whose factories were invoked, in order, and the first raised
    exception if any (which stops the loop at once). -/
def runValidation :
    List (AvailableTools × (World → Except PyErr Unit)) → World →
    List AvailableTools × Option PyErr
  | [], _ => ([], none)
  | (k, v) :: rest, w =>
    if k = AvailableTools.CONNERY then runValidation rest w
    else
      match v w with
      | .ok _ =>
        let r := runValidation rest w
        (k :: r.1, r.2)
      | .error e => ([k], some e)

/-- The startup validation pass: the loop applied to the `TOOLS` registry. -/
def startupValidation (w : World) : List AvailableTools × Option PyErr :=
  runValidation TOOLS w

/-! ### Concrete environments used to evaluate the definitions -/

/-- A world where the Connery runner URL is set but its API key is absent;
    the local `data` directory exists and is empty, and no credential
    variables for the upload backends are set. -/
def wNoConneryKey : World where
  env := [("CONNERY_RUNNER_URL", "https://runner.example")]
  files := []
  listdir := fun p => if p = "data" then .ok [] else .error (.fileNotFound p)
  wasabiNet := .success
  awsNet := .success
  conneryAccepts := true

/-- A world with all four object-storage credential variables set, both
    services accepting uploads, and one local file `data/x.csv`. -/
def wCreds : World where
  env := [("WASABI_ACCESS_KEY", "wak"), ("WASABI_SECRET_KEY", "wsk"),
          ("AWS_ACCESS_KEY_ID", "akid"), ("AWS_SECRET_ACCESS_KEY", "asak")]
  files := ["data/x.csv"]
  listdir := fun p => if p = "data" then .ok ["x.csv"] else .error (.fileNotFound p)
  wasabiNet := .success
  awsNet := .success
  conneryAccepts := true

/-- The same credentials with no local files at all. -/
def wCredsNoFile : World :=
  { wCreds with files := [] }

/-- The same credentials with a local filesystem on which `os.listdir`
    always raises. -/
def wNoDataDir : World :=
  { wCreds with listdir := fun p => .error (.fileNotFound p) }

/-- The `lru_cache` state before any call. -/
def cacheEmpty : LruCache where
  entries := []
  nextId := 0

/-- A full cache: five distinct keys, each holding the tool its key builds. -/
def cacheFull : LruCache where
  entries :=
    [(("a1", "d1"), ⟨⟨"a1"⟩, "Retriever", "d1", 0⟩),
     (("a2", "d2"), ⟨⟨"a2"⟩, "Retriever", "d2", 1⟩),
     (("a3", "d3"), ⟨⟨"a3"⟩, "Retriever", "d3", 2⟩),
     (("a4", "d4"), ⟨⟨"a4"⟩, "Retriever", "d4", 3⟩),
     (("a5", "d5"), ⟨⟨"a5"⟩, "Retriever", "d5", 4⟩)]
  nextId := 5


/-! ### Round-trip lemmas for the CSV dialect -/

/-- A field rejected by `needsQuote` contains none of the special characters. -/
theorem needsQuote_false_iff (f : List Char) :
    needsQuote f = false ↔ ∀ c ∈ f, c ≠ ',' ∧ c ≠ '\"' ∧ c ≠ '\r' ∧ c ≠ '\n' := by
  simp only [needsQuote, List.any_eq_false, Bool.or_eq_true, decide_eq_true_eq, not_or]
  constructor <;> intro h c hc <;> have := h c hc <;> tauto

/-- Unfolding: a doubled quote inside a quoted body. -/
theorem parseQuoted_cons_quote_quote (t : List Char) :
    parseQuoted ('\"' :: '\"' :: t) = ('\"' :: (parseQuoted t).1, (parseQuoted t).2) := by
  simp [parseQuoted]

/-- Unfolding: a lone quote closes the quoted body. -/
theorem parseQuoted_cons_quote_other (c : Char) (t : List Char) (hc : c ≠ '\"') :
    parseQuoted ('\"' :: c :: t) = ([], c :: t) := by
  simp [parseQuoted, hc]

/-- Unfolding: a quote at the end of input closes the quoted body. -/
theorem parseQuoted_quote_nil : parseQuoted ['\"'] = ([], []) := by
  simp [parseQuoted]

/-- Unfolding: an ordinary character inside a quoted body. -/
theorem parseQuoted_cons_other (c : Char) (t : List Char) (hc : c ≠ '\"') :
    parseQuoted (c :: t) = (c :: (parseQuoted t).1, (parseQuoted t).2) := by
  rw [parseQuoted.eq_def]
  simp [hc]

/-- Reading back an escaped quoted body stops exactly at the closing quote. -/
theorem parseQuoted_escape (f rest : List Char) (h : rest.head? ≠ some '\"') :
    parseQuoted (escapeQuotes f ++ '\"' :: rest) = (f, rest) := by
  induction f with
  | nil =>
    cases rest with
    | nil =>
      have : escapeQuotes [] ++ ['\"'] = ['\"'] := by simp [escapeQuotes]
      rw [this, parseQuoted_quote_nil]
    | cons c2 t =>
      have hc2 : c2 ≠ '\"' := by simpa using h
      have : escapeQuotes [] ++ '\"' :: c2 :: t = '\"' :: c2 :: t := by
        simp [escapeQuotes]
      rw [this, parseQuoted_cons_quote_other c2 t hc2]
  | cons a f' ih =>
    by_cases ha : a = '\"'
    · subst ha
      have hesc : escapeQuotes ('\"' :: f') ++ '\"' :: rest
          = '\"' :: '\"' :: (escapeQuotes f' ++ '\"' :: rest) := by
        simp [escapeQuotes]
      rw [hesc, parseQuoted_cons_quote_quote, ih]
    · have hesc : escapeQuotes (a :: f') ++ '\"' :: rest
          = a :: (escapeQuotes f' ++ '\"' :: rest) := by
        simp [escapeQuotes, ha]
      rw [hesc, parseQuoted_cons_other a _ ha, ih]

/-- Reading back a clean unquoted body stops exactly at the separator. -/
theorem parseUnquoted_clean (f rest : List Char)
    (hf : ∀ c ∈ f, c ≠ ',' ∧ c ≠ '\r' ∧ c ≠ '\n')
    (h : rest = [] ∨ rest.head? = some ',' ∨ rest.head? = some '\r' ∨
      rest.head? = some '\n') :
    parseUnquoted (f ++ rest) = (f, rest) := by
  induction f with
  | nil =>
    rcases h with h | h | h | h
    · simp [h, parseUnquoted]
    all_goals
      cases rest with
      | nil => simp at h
      | cons c t =>
        simp only [List.head?_cons, Option.some.injEq] at h
        subst h
        simp [parseUnquoted]
  | cons a f' ih =>
    have ha := hf a (by simp)
    have hrec := ih (fun c hc => hf c (by simp [hc]))
    have h1 : (parseUnquoted (f' ++ rest)).1 = f' := by rw [hrec]
    have h2 : (parseUnquoted (f' ++ rest)).2 = rest := by rw [hrec]
    simp [parseUnquoted, ha.1, ha.2.1, ha.2.2, h1, h2]

/-- Reading back an encoded field stops exactly at the following separator. -/
theorem parseField_encode (f rest : List Char)
    (h : rest = [] ∨ rest.head? = some ',' ∨ rest.head? = some '\r') :
    parseField (encodeField f ++ rest) = (f, rest) := by
  have hrq : rest.head? ≠ some '\"' := by
    rcases h with h | h | h <;> simp [h]
  by_cases hq : needsQuote f
  · have := parseQuoted_escape f rest hrq
    simp [encodeField, hq, parseField, List.append_assoc, this]
  · have hq' : needsQuote f = false := by simpa using hq
    have hf := (needsQuote_false_iff f).1 hq'
    have hhead : (f ++ rest).head? ≠ some '\"' := by
      cases f with
      | nil => simpa using hrq
      | cons a f' => simpa using (hf a (by simp)).2.1
    rw [encodeField, if_neg (by simp [hq'])]
    rw [parseField, if_neg hhead]
    refine parseUnquoted_clean f rest
      (fun c hc => ⟨(hf c hc).1, (hf c hc).2.2.1, (hf c hc).2.2.2⟩) ?_
    rcases h with h | h | h
    exacts [Or.inl h, Or.inr (Or.inl h), Or.inr (Or.inr (Or.inl h))]

/-- A row occupies at least `r.length - 1` serialised characters. -/
theorem encodeRowPlain_length (r : List (List Char)) :
    r.length ≤ (encodeRowPlain r).length + 1 := by
  induction r with
  | nil => simp [encodeRowPlain]
  | cons f r' ih =>
    cases r' with
    | nil => simp [encodeRowPlain]
    | cons g r'' =>
      simp only [encodeRowPlain, List.length_cons, List.length_append] at *
      omega

/-- The same bound for the final row serialiser. -/
theorem encodeRow_length (r : List (List Char)) :
    r.length ≤ (encodeRow r).length + 1 := by
  match r with
  | [f] => simp [encodeRow]
  | [] => simp [encodeRow, encodeRowPlain]
  | f :: g :: r'' => simpa [encodeRow] using encodeRowPlain_length (f :: g :: r'')

/-- An encoded field never starts with a carriage return. -/
theorem encodeField_head (f : List Char) : (encodeField f).head? ≠ some '\r' := by
  by_cases hq : needsQuote f
  · simp [encodeField, hq]
  · have hq' : needsQuote f = false := by simpa using hq
    have hf := (needsQuote_false_iff f).1 hq'
    cases f with
    | nil => simp [encodeField, hq']
    | cons a f' =>
      have := (hf a (by simp)).2.2.1
      simp [encodeField, hq', this]

/-- A nonempty row serialises to a nonempty string that does not start with a
    carriage return. -/
theorem encodeRow_head (r : List (List Char)) (hr : r ≠ []) :
    ∃ c t, encodeRow r = c :: t ∧ c ≠ '\r' := by
  have plain : ∀ f fs, ∃ c t, encodeField f ++ ',' :: encodeRowPlain fs = c :: t ∧ c ≠ '\r' := by
    intro f fs
    cases he : encodeField f with
    | nil => exact ⟨',', encodeRowPlain fs, by simp, by decide⟩
    | cons c t =>
      refine ⟨c, t ++ ',' :: encodeRowPlain fs, by simp, ?_⟩
      have := encodeField_head f
      rw [he] at this
      simpa using this
  match r, hr with
  | [f], _ =>
    by_cases hf : f = []
    · exact ⟨'\"', ['\"'], by simp [encodeRow, hf], by decide⟩
    · cases he : encodeField f with
      | nil =>
        exfalso
        have : f = [] := by
          by_cases hq : needsQuote f
          · simp [encodeField, hq] at he
          · simpa [encodeField, hq] using he
        exact hf this
      | cons c t =>
        refine ⟨c, t, by simp [encodeRow, hf, he], ?_⟩
        have := encodeField_head f
        rw [he] at this
        simpa using this
  | f :: g :: r'', _ =>
    obtain ⟨c, t, hct, hc⟩ := plain f (g :: r'')
    exact ⟨c, t, by simpa [encodeRow, encodeRowPlain] using hct, hc⟩

/-- Reading back a plain-serialised nonempty row consumes it and its line
    terminator. -/
theorem parseRowFuel_plain (r : List (List Char)) (t : List Char) (hr : r ≠ []) :
    ∀ fuel, r.length ≤ fuel →
      parseRowFuel fuel (encodeRowPlain r ++ '\r' :: '\n' :: t) = (r, t) := by
  induction r with
  | nil => exact absurd rfl hr
  | cons f r' ih =>
    intro fuel hfuel
    cases r' with
    | nil =>
      cases fuel with
      | zero => simp at hfuel
      | succ fuel' =>
        have hp := parseField_encode f ('\r' :: '\n' :: t) (by simp)
        simp [encodeRowPlain, parseRowFuel, hp]
    | cons g r'' =>
      cases fuel with
      | zero => simp at hfuel
      | succ fuel' =>
        have hsplit : encodeRowPlain (f :: g :: r'') ++ '\r' :: '\n' :: t
            = encodeField f ++ (',' :: (encodeRowPlain (g :: r'') ++ '\r' :: '\n' :: t)) := by
          simp [encodeRowPlain]
        have hp := parseField_encode f
          (',' :: (encodeRowPlain (g :: r'') ++ '\r' :: '\n' :: t)) (by simp)
        have hrec := ih (by simp) fuel' (by simpa using hfuel)
        rw [hsplit]
        simp [parseRowFuel, hp, hrec]

/-- Reading back any encoded nonempty row consumes it and its terminator. -/
theorem parseRowFuel_encodeRow (r : List (List Char)) (t : List Char)
    (hr : r ≠ []) (fuel : Nat) (hfuel : r.length ≤ fuel) :
    parseRowFuel fuel (encodeRow r ++ '\r' :: '\n' :: t) = (r, t) := by
  match r, hr with
  | [f], _ =>
    by_cases hf : f = []
    · subst hf
      cases fuel with
      | zero => simp at hfuel
      | succ fuel' =>
        have h1 : parseField ('\"' :: '\"' :: '\r' :: '\n' :: t)
            = ([], '\r' :: '\n' :: t) := by
          rw [parseField, if_pos (by simp)]
          simpa using parseQuoted_cons_quote_other '\r' ('\n' :: t) (by decide)
        simp [encodeRow, parseRowFuel, h1]
    · have : encodeRow [f] = encodeRowPlain [f] := by
        simp [encodeRow, encodeRowPlain, hf]
      rw [this]
      exact parseRowFuel_plain [f] t (by simp) fuel hfuel
  | f :: g :: r'', _ =>
    have : encodeRow (f :: g :: r'') = encodeRowPlain (f :: g :: r'') := by
      simp [encodeRow]
    rw [this]
    exact parseRowFuel_plain (f :: g :: r'') t (by simp) fuel hfuel

/-- A serialised document is at least twice as long as its row count. -/
theorem encodeRows_length (rows : List (List (List Char))) :
    2 * rows.length ≤ (encodeRows rows).length := by
  induction rows with
  | nil => simp [encodeRows]
  | cons r rows' ih =>
    have h : encodeRows (r :: rows') = encodeRow r ++ '\r' :: '\n' :: encodeRows rows' := by
      simp [encodeRows]
    rw [h]
    simp only [List.length_append, List.length_cons]
    omega

/-- Unfolding lemma for one step of the document reader. -/
theorem parseRowsFuel_succ (fuel : Nat) (cs : List Char) :
    parseRowsFuel (fuel + 1) cs =
      if cs = [] then []
      else if cs.take 2 = ['\r', '\n'] then [] :: parseRowsFuel fuel (cs.drop 2)
      else (parseRowFuel (cs.length + 1) cs).1 ::
        parseRowsFuel fuel (parseRowFuel (cs.length + 1) cs).2 := by
  rfl

/-- Reading back a serialised document recovers every row, given enough fuel. -/
theorem parseRowsFuel_encode (rows : List (List (List Char))) :
    ∀ fuel, rows.length < fuel →
      parseRowsFuel fuel (encodeRows rows) = rows := by
  induction rows with
  | nil =>
    intro fuel h
    cases fuel with
    | zero => simp at h
    | succ fuel' => simp [encodeRows, parseRowsFuel]
  | cons r rows' ih =>
    intro fuel h
    cases fuel with
    | zero => simp at h
    | succ fuel' =>
    have hrec := ih fuel' (by simpa using Nat.lt_of_succ_lt_succ h)
    by_cases hr : r = []
    · subst hr
      have hrows : encodeRows ([] :: rows') = '\r' :: '\n' :: encodeRows rows' := by
        simp [encodeRows, encodeRow, encodeRowPlain]
      rw [hrows, parseRowsFuel_succ]
      rw [if_neg (by simp), if_pos (by simp)]
      simpa using hrec
    · obtain ⟨c, tl, hct, hc⟩ := encodeRow_head r hr
      have hrows : encodeRows (r :: rows')
          = encodeRow r ++ '\r' :: '\n' :: encodeRows rows' := by
        simp [encodeRows]
      have hne : encodeRow r ++ '\r' :: '\n' :: encodeRows rows' ≠ [] := by
        rw [hct]; simp
      have htk : ¬ ((encodeRow r ++ '\r' :: '\n' :: encodeRows rows').take 2
          = ['\r', '\n']) := by
        rw [hct]; simp [hc]
      have hfuel2 : r.length
          ≤ (encodeRow r ++ '\r' :: '\n' :: encodeRows rows').length + 1 := by
        have := encodeRow_length r
        simp only [List.length_append, List.length_cons]
        omega
      have hrow := parseRowFuel_encodeRow r (encodeRows rows') hr
        ((encodeRow r ++ '\r' :: '\n' :: encodeRows rows').length + 1) hfuel2
      rw [hrows, parseRowsFuel_succ, if_neg hne, if_neg htk, hrow]
      simpa using hrec

/-- Round trip: the reader recovers exactly what the writer wrote, for every
    list of rows. -/
theorem csv_roundtrip (rows : List (List (List Char))) :
    csvParse (encodeRows rows) = rows := by
  apply parseRowsFuel_encode
  have := encodeRows_length rows
  omega


/-! ### Claims -/

/-- C3 (counterexample): for an absolute file name, `create_csv` does not
    return the path `data/<file_name>` — `os.path.join` discards the `data`
    prefix, so the path returned (and written) is `/x.csv` itself. -/
theorem c3_counterexample :
    (create_csv [['a']] [] "/x.csv").1 = "/x.csv" ∧
    (create_csv [['a']] [] "/x.csv").1 ≠ "data/" ++ "/x.csv" := by
  exact ⟨rfl, by decide⟩

/-- C3 (amended): for every header, row list, and file name that does not
    begin with a slash, `create_csv` writes a CSV file whose parsed contents
    equal exactly the header row followed by the given data rows in order
    (no row-length validation), and returns the path `data/<file_name>`. -/
theorem c3_create_csv_roundtrip (header : List (List Char))
    (data : List (List (List Char))) (file_name : String)
    (h : file_name.data.head? ≠ some '/') :
    csvParse (create_csv header data file_name).2 = header :: data ∧
    (create_csv header data file_name).1 = "data/" ++ file_name := by
  constructor
  · simpa [create_csv] using csv_roundtrip (header :: data)
  · show posixJoin "data" file_name = "data/" ++ file_name
    rw [posixJoin, if_neg h, if_neg (by decide)]
    congr 1

/-- C3 (witness): a concrete run of the amended claim. -/
theorem c3_witness :
    csvParse (create_csv [['i', 'd']] [[['1']]] "out.csv").2
      = [['i', 'd']] :: [[['1']]] ∧
    (create_csv [['i', 'd']] [[['1']]] "out.csv").1 = "data/" ++ "out.csv" :=
  ⟨(c3_create_csv_roundtrip [['i', 'd']] [[['1']]] "out.csv" (by decide)).1,
   (c3_create_csv_roundtrip [['i', 'd']] [[['1']]] "out.csv" (by decide)).2⟩

/-- C4: both run methods of the directory-listing tool return the listing of
    the fixed `data` directory, ignoring the caller's folder argument: any
    two folder arguments give the same result in the same directory state. -/
theorem c4_listing_ignores_argument (w : World) (fp1 fp2 : String) :
    GetFilesInDataFolder_run w fp1 = w.listdir "data" ∧
    GetFilesInDataFolder_run w fp1 = GetFilesInDataFolder_run w fp2 ∧
    GetFilesInDataFolder_arun w fp1 = w.listdir "data" ∧
    GetFilesInDataFolder_arun w fp1 = GetFilesInDataFolder_arun w fp2 :=
  ⟨rfl, rfl, rfl, rfl⟩

/-- C6: for each of the three tools, the non-blocking entry point `_arun`
    invokes exactly the underlying function of the blocking `_run` and
    returns the same result. -/
theorem c6_arun_equals_run (header : List (List Char))
    (data : List (List (List Char))) (file_name : String) (w : World)
    (fn2 fp : String) :
    CreateCSV_arun header data file_name = CreateCSV_run header data file_name ∧
    CreateCSV_arun header data file_name = create_csv header data file_name ∧
    UploadCSV_arun w fn2 = UploadCSV_run w fn2 ∧
    UploadCSV_arun w fn2 = upload_file_to_s3 w fn2 ∧
    GetFilesInDataFolder_arun w fp = GetFilesInDataFolder_run w fp ∧
    GetFilesInDataFolder_arun w fp = get_all_files_in_data_folder w "data" :=
  ⟨rfl, rfl, rfl, rfl, rfl, rfl⟩

/-- C10: `UploadCSV`'s entry points invoke the S3 backend, never the Wasabi
    backend, although the tool's description says Wasabi; every registered
    tool's behaviour is unchanged by the Wasabi service's state. -/
theorem c10_uploadcsv_uses_s3 (w : World) (fn : String) (n : NetOutcome)
    (fp : String) :
    UploadCSV_run w fn = upload_file_to_s3 w fn ∧
    UploadCSV_arun w fn = upload_file_to_s3 w fn ∧
    UploadCSV_description = "Upload a CSV file to Wasabi Hot Cloud Storage." ∧
    UploadCSV_run { w with wasabiNet := n } fn = UploadCSV_run w fn ∧
    UploadCSV_arun { w with wasabiNet := n } fn = UploadCSV_arun w fn ∧
    GetFilesInDataFolder_run { w with wasabiNet := n } fp
      = GetFilesInDataFolder_run w fp ∧
    GetFilesInDataFolder_arun { w with wasabiNet := n } fp
      = GetFilesInDataFolder_arun w fp ∧
    connery_factory { w with wasabiNet := n } = connery_factory w :=
  ⟨rfl, rfl, rfl, rfl, rfl, rfl, rfl, rfl⟩

/-- When the `data` directory lists successfully, the startup pass invokes
    exactly the three non-Connery factories, in registry order, and succeeds. -/
theorem startupValidation_ok (w : World) (l : List String)
    (h : w.listdir "data" = .ok l) :
    startupValidation w
      = ([AvailableTools.CREATE_CSV, AvailableTools.UPLOAD_CSV,
          AvailableTools.GET_ALL_FILES], none) := by
  simp [startupValidation, TOOLS, runValidation, createCSV_factory,
    uploadCSV_factory, get_all_files_factory, get_all_files_in_data_folder, h,
    Except.map]

/-- When `os.listdir("data")` raises, the startup pass stops at the
    `GET_ALL_FILES` factory with that exception. -/
theorem startupValidation_error (w : World) (e : PyErr)
    (h : w.listdir "data" = .error e) :
    startupValidation w
      = ([AvailableTools.CREATE_CSV, AvailableTools.UPLOAD_CSV,
          AvailableTools.GET_ALL_FILES], some e) := by
  simp [startupValidation, TOOLS, runValidation, createCSV_factory,
    uploadCSV_factory, get_all_files_factory, get_all_files_in_data_folder, h,
    Except.map]

/-- C1 (counterexample): in a world whose environment has the Connery runner
    URL but no API key, and an existing empty `data` directory, the startup
    validation pass succeeds — it does not halt — although constructing the
    Connery tool in that world would fail.  The loop skips Connery instead of
    constructing it unconditionally. -/
theorem c1_counterexample :
    envGet wNoConneryKey "CONNERY_RUNNER_API_KEY" = none ∧
    startupValidation wNoConneryKey
      = ([AvailableTools.CREATE_CSV, AvailableTools.UPLOAD_CSV,
          AvailableTools.GET_ALL_FILES], none) ∧
    connery_factory wNoConneryKey
      = .error (.valueError
          "CONNERY_RUNNER_API_KEY environment variable must be set") :=
  ⟨rfl, startupValidation_ok wNoConneryKey [] rfl, rfl⟩

/-- C1 (amended): startup validation never constructs the Connery tool — the
    loop excludes it explicitly — so a missing Connery API key does not fail
    the validation pass (it fails only when the Connery factory itself is
    invoked later). -/
theorem c1_startup_skips_connery (w : World) :
    AvailableTools.CONNERY ∉ (startupValidation w).1 ∧
    (∀ l, w.listdir "data" = .ok l → (startupValidation w).2 = none) ∧
    (envGet w "CONNERY_RUNNER_API_KEY" = none →
      ∃ e, connery_factory w = .error e) := by
  refine ⟨?_, ?_, ?_⟩
  · cases h : w.listdir "data" with
    | ok l => rw [startupValidation_ok w l h]; simp
    | error e => rw [startupValidation_error w e h]; simp
  · intro l h
    rw [startupValidation_ok w l h]
  · intro h
    cases hu : envGet w "CONNERY_RUNNER_URL" with
    | none =>
      exact ⟨PyErr.valueError "CONNERY_RUNNER_URL environment variable must be set",
        by simp [connery_factory, hu]⟩
    | some u =>
      exact ⟨PyErr.valueError "CONNERY_RUNNER_API_KEY environment variable must be set",
        by simp [connery_factory, hu, h]⟩

/-- C1 (witness): the amended claim evaluated in the concrete world missing
    only the Connery API key. -/
theorem c1_witness :
    (startupValidation wNoConneryKey).2 = none ∧
    (∃ e, connery_factory wNoConneryKey = .error e) :=
  ⟨(c1_startup_skips_connery wNoConneryKey).2.1 [] rfl,
   (c1_startup_skips_connery wNoConneryKey).2.2 rfl⟩

/-- C9: the startup pass invokes every registered factory exactly once, in
    registry order, skipping exactly the Connery entry; and in any registry
    prefix whose non-Connery factories succeed, a failing factory stops the
    loop immediately — nothing after it runs, with no retry. -/
theorem c9_validation_loop :
    (∀ (w : World) (l : List String), w.listdir "data" = .ok l →
      startupValidation w
        = ([AvailableTools.CREATE_CSV, AvailableTools.UPLOAD_CSV,
            AvailableTools.GET_ALL_FILES], none)) ∧
    (∀ (pre : List (AvailableTools × (World → Except PyErr Unit)))
       (k : AvailableTools) (v : World → Except PyErr Unit)
       (rest : List (AvailableTools × (World → Except PyErr Unit)))
       (w : World) (e : PyErr),
      (∀ p ∈ pre, p.1 = AvailableTools.CONNERY ∨ p.2 w = .ok ()) →
      k ≠ AvailableTools.CONNERY → v w = .error e →
      runValidation (pre ++ (k, v) :: rest) w
        = ((pre.filter (fun p => p.1 ≠ AvailableTools.CONNERY)).map Prod.fst
            ++ [k], some e)) := by
  constructor
  · exact startupValidation_ok
  · intro pre k v rest w e hall hk hv
    induction pre with
    | nil => simp [runValidation, hk, hv]
    | cons p pre' ih =>
      have hrec := ih (fun q hq => hall q (by simp [hq]))
      by_cases hp : p.1 = AvailableTools.CONNERY
      · obtain ⟨p1, p2⟩ := p
        simp only at hp
        subst hp
        simp [runValidation, hrec]
      · have hok : p.2 w = .ok () := by
          rcases hall p (by simp) with h | h
          · exact absurd h hp
          · exact h
        obtain ⟨p1, p2⟩ := p
        simp only at hp hok
        simp [runValidation, hp, hok, hrec]

/-- C9 (witness): the full pass on a healthy world, and a concrete aborted
    run where the listing factory fails. -/
theorem c9_witness :
    startupValidation wCreds
      = ([AvailableTools.CREATE_CSV, AvailableTools.UPLOAD_CSV,
          AvailableTools.GET_ALL_FILES], none) ∧
    runValidation ([(AvailableTools.CREATE_CSV, createCSV_factory)]
        ++ (AvailableTools.GET_ALL_FILES, get_all_files_factory) :: []) wNoDataDir
      = (([(AvailableTools.CREATE_CSV, createCSV_factory)].filter
            (fun p => p.1 ≠ AvailableTools.CONNERY)).map Prod.fst
          ++ [AvailableTools.GET_ALL_FILES], some (.fileNotFound "data")) :=
  ⟨c9_validation_loop.1 wCreds ["x.csv"] rfl,
   c9_validation_loop.2 [(AvailableTools.CREATE_CSV, createCSV_factory)]
     AvailableTools.GET_ALL_FILES get_all_files_factory [] wNoDataDir
     (.fileNotFound "data")
     (fun p hp => Or.inr (by rw [List.mem_singleton.mp hp]; rfl))
     (by decide) rfl⟩

/-- C2 (counterexample): with Wasabi credentials present but the named local
    file absent, `upload_file_to_wasabi` raises `FileNotFoundError` to the
    caller instead of returning a null result — only `NoCredentialsError` is
    caught. -/
theorem c2_counterexample :
    (upload_file_to_wasabi wCredsNoFile "x.csv").1
      = .error (.fileNotFound "data/x.csv") ∧
    (upload_file_to_wasabi wCredsNoFile "x.csv").1 ≠ .ok none := by
  refine ⟨rfl, ?_⟩
  intro hc
  rw [show (upload_file_to_wasabi wCredsNoFile "x.csv").1
      = Except.error (PyErr.fileNotFound "data/x.csv") from rfl] at hc
  exact Except.noConfusion hc

/-- C2 (amended): `upload_file_to_s3` returns a null result (with a logged
    diagnostic) for every failure of the upload call itself, but a missing
    credential environment variable raises `KeyError` in both backends
    because `os.environ[...]` is evaluated outside the `try`; and
    `upload_file_to_wasabi` returns null only for the credentials-specific
    failure — a nonexistent local file or any other upload failure raises. -/
theorem c2_upload_error_policy (w : World) (fn : String) :
    (envGet w "AWS_ACCESS_KEY_ID" = none →
      (upload_file_to_s3 w fn).1 = .error (.keyError "AWS_ACCESS_KEY_ID")) ∧
    (envGet w "WASABI_ACCESS_KEY" = none →
      (upload_file_to_wasabi w fn).1 = .error (.keyError "WASABI_ACCESS_KEY")) ∧
    (∀ c d, envGet w "AWS_ACCESS_KEY_ID" = some c →
      envGet w "AWS_SECRET_ACCESS_KEY" = some d →
      (posixJoin "data" fn ∉ w.files ∨ w.awsNet ≠ .success) →
      (upload_file_to_s3 w fn).1 = .ok none) ∧
    (∀ a b, envGet w "WASABI_ACCESS_KEY" = some a →
      envGet w "WASABI_SECRET_KEY" = some b →
      ((posixJoin "data" fn ∈ w.files → w.wasabiNet = .credsRejected →
          (upload_file_to_wasabi w fn).1 = .ok none) ∧
       (posixJoin "data" fn ∉ w.files →
          (upload_file_to_wasabi w fn).1
            = .error (.fileNotFound (posixJoin "data" fn))) ∧
       (∀ m, posixJoin "data" fn ∈ w.files → w.wasabiNet = .failure m →
          (upload_file_to_wasabi w fn).1 = .error (.uploadError m)))) := by
  refine ⟨?_, ?_, ?_, ?_⟩
  · intro h
    simp [upload_file_to_s3, envItem, h]
  · intro h
    simp [upload_file_to_wasabi, envItem, h]
  · intro c d hc hd hfail
    have h1 : envItem w "AWS_ACCESS_KEY_ID" = .ok c := by simp [envItem, hc]
    have h2 : envItem w "AWS_SECRET_ACCESS_KEY" = .ok d := by simp [envItem, hd]
    rcases hfail with hmem | hnet
    · simp [upload_file_to_s3, h1, h2, s3UploadFile, hmem]
    · by_cases hmem : posixJoin "data" fn ∈ w.files
      · cases hn : w.wasabiNet <;>
          cases ha : w.awsNet <;>
          simp_all [upload_file_to_s3, h1, h2, s3UploadFile, hmem]
      · simp [upload_file_to_s3, h1, h2, s3UploadFile, hmem]
  · intro a b ha hb
    have h1 : envItem w "WASABI_ACCESS_KEY" = .ok a := by simp [envItem, ha]
    have h2 : envItem w "WASABI_SECRET_KEY" = .ok b := by simp [envItem, hb]
    refine ⟨?_, ?_, ?_⟩
    · intro hmem hnet
      simp [upload_file_to_wasabi, h1, h2, s3UploadFile, hmem, hnet]
    · intro hmem
      simp [upload_file_to_wasabi, h1, h2, s3UploadFile, hmem]
    · intro m hmem hnet
      simp [upload_file_to_wasabi, h1, h2, s3UploadFile, hmem, hnet]

/-- C2 (witness): each branch of the amended error policy evaluated at a
    concrete world and file name. -/
theorem c2_witness :
    (upload_file_to_s3 wNoConneryKey "x.csv").1
      = .error (.keyError "AWS_ACCESS_KEY_ID") ∧
    (upload_file_to_wasabi wNoConneryKey "x.csv").1
      = .error (.keyError "WASABI_ACCESS_KEY") ∧
    (upload_file_to_s3 wCredsNoFile "x.csv").1 = .ok none ∧
    (upload_file_to_wasabi { wCreds with wasabiNet := .credsRejected } "x.csv").1
      = .ok none ∧
    (upload_file_to_wasabi wCredsNoFile "x.csv").1
      = .error (.fileNotFound (posixJoin "data" "x.csv")) ∧
    (upload_file_to_wasabi { wCreds with wasabiNet := .failure "boom" } "x.csv").1
      = .error (.uploadError "boom") :=
  ⟨(c2_upload_error_policy wNoConneryKey "x.csv").1 rfl,
   (c2_upload_error_policy wNoConneryKey "x.csv").2.1 rfl,
   (c2_upload_error_policy wCredsNoFile "x.csv").2.2.1 "akid" "asak" rfl rfl
     (Or.inl (by simp [wCredsNoFile, wCreds, posixJoin])),
   ((c2_upload_error_policy { wCreds with wasabiNet := .credsRejected } "x.csv").2.2.2
     "wak" "wsk" rfl rfl).1 (by simp [wCreds, posixJoin]) rfl,
   ((c2_upload_error_policy wCredsNoFile "x.csv").2.2.2 "wak" "wsk" rfl rfl).2.1
     (by simp [wCredsNoFile, wCreds, posixJoin]),
   ((c2_upload_error_policy { wCreds with wasabiNet := .failure "boom" } "x.csv").2.2.2
     "wak" "wsk" rfl rfl).2.2 "boom" (by simp [wCreds, posixJoin]) rfl⟩

/-- C7: on a successful upload each backend returns the deterministic public
    URL `https://<bucket>.<service-host>/<object-key>` for its fixed bucket
    and region, the object key being the basename of the file name, and the
    single upload call it issues carries the `public-read` ACL. -/
theorem c7_upload_success_url (w : World) (fn : String) :
    (∀ a b, envGet w "WASABI_ACCESS_KEY" = some a →
      envGet w "WASABI_SECRET_KEY" = some b →
      posixJoin "data" fn ∈ w.files → w.wasabiNet = .success →
      upload_file_to_wasabi w fn
        = (.ok (some
            ("https://tesa-medication-schedules.s3.ap-southeast-1.wasabisys.com/"
              ++ lastSlashComponent fn)),
           [⟨"s3.ap-southeast-1.wasabisys.com", posixJoin "data" fn,
             "tesa-medication-schedules", lastSlashComponent fn, "public-read"⟩])) ∧
    (∀ c d, envGet w "AWS_ACCESS_KEY_ID" = some c →
      envGet w "AWS_SECRET_ACCESS_KEY" = some d →
      posixJoin "data" fn ∈ w.files → w.awsNet = .success →
      upload_file_to_s3 w fn
        = (.ok (some
            ("https://tesa-medication-schedules.s3.ap-southeast-1.amazonaws.com/"
              ++ lastSlashComponent fn)),
           [⟨"s3.ap-southeast-1.amazonaws.com", posixJoin "data" fn,
             "tesa-medication-schedules", lastSlashComponent fn, "public-read"⟩])) := by
  constructor
  · intro a b ha hb hmem hnet
    have h1 : envItem w "WASABI_ACCESS_KEY" = .ok a := by simp [envItem, ha]
    have h2 : envItem w "WASABI_SECRET_KEY" = .ok b := by simp [envItem, hb]
    simp [upload_file_to_wasabi, h1, h2, s3UploadFile, hmem, hnet]
  · intro c d hc hd hmem hnet
    have h1 : envItem w "AWS_ACCESS_KEY_ID" = .ok c := by simp [envItem, hc]
    have h2 : envItem w "AWS_SECRET_ACCESS_KEY" = .ok d := by simp [envItem, hd]
    simp [upload_file_to_s3, h1, h2, s3UploadFile, hmem, hnet]

/-- C7 (witness): both backends evaluated on a concrete world holding
    `data/x.csv` with both services accepting. -/
theorem c7_witness :
    upload_file_to_wasabi wCreds "x.csv"
      = (.ok (some
          ("https://tesa-medication-schedules.s3.ap-southeast-1.wasabisys.com/"
            ++ lastSlashComponent "x.csv")),
         [⟨"s3.ap-southeast-1.wasabisys.com", posixJoin "data" "x.csv",
           "tesa-medication-schedules", lastSlashComponent "x.csv", "public-read"⟩]) ∧
    upload_file_to_s3 wCreds "x.csv"
      = (.ok (some
          ("https://tesa-medication-schedules.s3.ap-southeast-1.amazonaws.com/"
            ++ lastSlashComponent "x.csv")),
         [⟨"s3.ap-southeast-1.amazonaws.com", posixJoin "data" "x.csv",
           "tesa-medication-schedules", lastSlashComponent "x.csv", "public-read"⟩]) :=
  ⟨(c7_upload_success_url wCreds "x.csv").1 "wak" "wsk" rfl rfl
     (by simp [wCreds, posixJoin]) rfl,
   (c7_upload_success_url wCreds "x.csv").2 "akid" "asak" rfl rfl
     (by simp [wCreds, posixJoin]) rfl⟩

/-- C8 (counterexample): the enumeration member `RETRIEVAL` has no entry in
    the `TOOLS` registry, so not every member has exactly one registered
    factory. -/
theorem c8_counterexample :
    AvailableTools.RETRIEVAL ∈ allAvailableTools ∧
    countKey AvailableTools.RETRIEVAL = 0 ∧
    ¬ (∀ k : AvailableTools, countKey k = 1) := by
  refine ⟨by decide, rfl, ?_⟩
  intro h
  exact absurd (h AvailableTools.RETRIEVAL)
    (by decide : countKey AvailableTools.RETRIEVAL ≠ 1)

/-- C8 (amended): every enumeration member except `RETRIEVAL` has exactly one
    registered factory, `RETRIEVAL` has none (it is constructed separately,
    per assistant, by `get_retrieval_tool`), and looking up any identifier
    outside the enumeration's value set fails the pure registry lookup
    without invoking anything. -/
theorem c8_registry_partition (k : AvailableTools) (s : String)
    (hk : k ≠ AvailableTools.RETRIEVAL)
    (hs : s ∉ TOOL_OPTIONS.map Prod.fst) :
    countKey k = 1 ∧ countKey AvailableTools.RETRIEVAL = 0 ∧
    lookupTool s = none := by
  refine ⟨?_, rfl, ?_⟩
  · cases k <;> first | rfl | exact absurd rfl hk
  · simp [TOOL_OPTIONS, allAvailableTools, AvailableTools.value] at hs
    obtain ⟨h1, h2, h3, h4, h5⟩ := hs
    simp [lookupTool, TOOLS, List.find?, AvailableTools.value,
      Ne.symm h1, Ne.symm h3, Ne.symm h4, Ne.symm h5]

/-- C8 (witness): a member with its single factory, and a rejected unknown
    identifier. -/
theorem c8_witness :
    countKey AvailableTools.CREATE_CSV = 1 ∧
    countKey AvailableTools.RETRIEVAL = 0 ∧
    lookupTool "No such tool" = none :=
  c8_registry_partition AvailableTools.CREATE_CSV "No such tool"
    (by decide) (by decide)

/-- In a well-formed cache every entry's tool is bound to its own key. -/
theorem wf_entry (c : LruCache) (hwf : c.wf = true) :
    ∀ p ∈ c.entries, p.2.retriever.namespaceFilter = p.1.1 ∧
      p.2.name = "Retriever" ∧ p.2.description = p.1.2 := by
  intro p hp
  simp only [LruCache.wf, Bool.and_eq_true, List.all_eq_true, decide_eq_true_eq] at hwf
  have h := hwf.2 p hp
  exact ⟨h.1.1, h.1.2, h.2⟩

/-- A well-formed cache has at most five entries. -/
theorem wf_length (c : LruCache) (hwf : c.wf = true) : c.entries.length ≤ 5 := by
  simp only [LruCache.wf, Bool.and_eq_true, List.all_eq_true, decide_eq_true_eq] at hwf
  exact hwf.1

/-- The tool returned by the factory is bound to the requested assistant's
    namespace filter and description. -/
theorem get_retrieval_tool_fields (aid desc : String) (c : LruCache)
    (hwf : c.wf = true) :
    ((get_retrieval_tool aid desc c).1).retriever.namespaceFilter = aid ∧
    ((get_retrieval_tool aid desc c).1).name = "Retriever" ∧
    ((get_retrieval_tool aid desc c).1).description = desc := by
  unfold get_retrieval_tool
  cases hfind : c.entries.find? (fun p => decide (p.1 = (aid, desc))) with
  | none => simp [hfind, create_retriever_tool, get_retriever]
  | some p =>
    have hmem := List.mem_of_find?_eq_some hfind
    have hkey : p.1 = (aid, desc) := by simpa using List.find?_some hfind
    have hfields := wf_entry c hwf p hmem
    rw [hkey] at hfields
    simp only [hfind]
    simpa using hfields

/-- Calling the factory twice in a row with the same key returns the same
    tool object: the first call leaves the entry at the front of the cache
    and the second finds it there. -/
theorem get_retrieval_tool_memo (aid desc : String) (c : LruCache) :
    (get_retrieval_tool aid desc (get_retrieval_tool aid desc c).2).1
      = (get_retrieval_tool aid desc c).1 := by
  unfold get_retrieval_tool
  cases hfind : c.entries.find? (fun p => decide (p.1 = (aid, desc))) with
  | some p =>
    have hkey : p.1 = (aid, desc) := by simpa using List.find?_some hfind
    simp [hfind, List.find?, hkey]
  | none =>
    simp [hfind, List.take_succ_cons, List.find?]

/-- The cache never exceeds five entries. -/
theorem get_retrieval_tool_cap (aid desc : String) (c : LruCache)
    (h : c.entries.length ≤ 5) :
    ((get_retrieval_tool aid desc c).2).entries.length ≤ 5 := by
  unfold get_retrieval_tool
  cases hfind : c.entries.find? (fun p => decide (p.1 = (aid, desc))) with
  | none =>
    simp [hfind, List.length_take]
  | some p =>
    have hmem := List.mem_of_find?_eq_some hfind
    have hkey : p.1 = (aid, desc) := by simpa using List.find?_some hfind
    have hlt : (c.entries.filter
        (fun q => !(decide (q.1 = (aid, desc))))).length < c.entries.length := by
      refine List.length_filter_lt_length_iff_exists.mpr ⟨p, hmem, ?_⟩
      simp [hkey]
    simp only [hfind, List.length_cons]
    omega

/-- C5: `get_retrieval_tool` is memoized on the `(assistant_id, description)`
    pair in a cache of at most five entries: an immediate repeat call returns
    the same tool object; the returned tool always carries the requesting
    assistant's own namespace filter and description, so calls for different
    assistants return distinct tools; and a miss on a full cache evicts
    exactly the least recently used (last) entry. -/
theorem c5_retrieval_tool_memoized (aid desc aid2 desc2 : String)
    (c c2 : LruCache) (hwf : c.wf = true) (hwf2 : c2.wf = true) :
    ((get_retrieval_tool aid desc (get_retrieval_tool aid desc c).2).1
        = (get_retrieval_tool aid desc c).1) ∧
    ((get_retrieval_tool aid desc c).1).retriever.namespaceFilter = aid ∧
    ((get_retrieval_tool aid desc c).1).description = desc ∧
    (aid ≠ aid2 →
      (get_retrieval_tool aid desc c).1 ≠ (get_retrieval_tool aid2 desc2 c2).1) ∧
    ((get_retrieval_tool aid desc c).2).entries.length ≤ 5 ∧
    (c.entries.find? (fun p => decide (p.1 = (aid, desc))) = none →
      c.entries.length = 5 →
      ((get_retrieval_tool aid desc c).2).entries
        = ((aid, desc), (get_retrieval_tool aid desc c).1) :: c.entries.dropLast) := by
  refine ⟨get_retrieval_tool_memo aid desc c,
    (get_retrieval_tool_fields aid desc c hwf).1,
    (get_retrieval_tool_fields aid desc c hwf).2.2, ?_, ?_, ?_⟩
  · intro hne heq
    apply hne
    have h1 := (get_retrieval_tool_fields aid desc c hwf).1
    have h2 := (get_retrieval_tool_fields aid2 desc2 c2 hwf2).1
    rw [← h1, ← h2, heq]
  · exact get_retrieval_tool_cap aid desc c (wf_length c hwf)
  · intro hmiss hfull
    have hdrop : c.entries.take 4 = c.entries.dropLast := by
      rw [List.dropLast_eq_take, hfull]
    unfold get_retrieval_tool
    simp [hmiss, List.take_succ_cons, hdrop]

/-- C5 (witness): concrete cache runs — a repeat call on the previously
    empty cache, the field bindings, distinctness for two assistants, the
    size cap, and the eviction of the oldest entry of a full cache. -/
theorem c5_witness :
    ((get_retrieval_tool "a" "d" (get_retrieval_tool "a" "d" cacheEmpty).2).1
        = (get_retrieval_tool "a" "d" cacheEmpty).1) ∧
    ((get_retrieval_tool "a" "d" cacheEmpty).1).retriever.namespaceFilter = "a" ∧
    ((get_retrieval_tool "a" "d" cacheEmpty).1).description = "d" ∧
    ((get_retrieval_tool "a" "d" cacheEmpty).1
      ≠ (get_retrieval_tool "b" "d" cacheFull).1) ∧
    ((get_retrieval_tool "a" "d" cacheEmpty).2).entries.length ≤ 5 ∧
    ((get_retrieval_tool "b" "e" cacheFull).2).entries
      = (("b", "e"), (get_retrieval_tool "b" "e" cacheFull).1)
          :: cacheFull.entries.dropLast :=
  ⟨(c5_retrieval_tool_memoized "a" "d" "b" "d" cacheEmpty cacheFull rfl rfl).1,
   (c5_retrieval_tool_memoized "a" "d" "b" "d" cacheEmpty cacheFull rfl rfl).2.1,
   (c5_retrieval_tool_memoized "a" "d" "b" "d" cacheEmpty cacheFull rfl rfl).2.2.1,
   (c5_retrieval_tool_memoized "a" "d" "b" "d" cacheEmpty cacheFull rfl rfl).2.2.2.1
     (by decide),
   (c5_retrieval_tool_memoized "a" "d" "b" "d" cacheEmpty cacheFull rfl rfl).2.2.2.2.1,
   (c5_retrieval_tool_memoized "b" "e" "a" "d" cacheFull cacheEmpty rfl rfl).2.2.2.2.2
     rfl rfl⟩

end ToolsPy
